import Mathlib

/-!
Verification development for the AlgoHive API puzzle-attempt core.

This file gives a shallow embedding of the attempt ("Try") lifecycle engine
(services/tries_services.go, transaction-based version), the rate-limit gate
(services.CheckRateLimit together with config.DefaultRateLimitConfig), the
score policy (utils CalculateScore), the legacy create-or-update handler
(handlers/competitions/competition_tries.go handleTry) and the realtime
broadcast fan-out (realtime handleBroadcast), and proves properties of the
embedded operations.

Modelling conventions:
* The tries table is a list of rows; gorm First on the unique key is the
  first matching row, Create appends a row with a fresh primary key, Save
  replaces the row with the same primary key.
* Go timestamps are the stored RFC3339 strings; wall-clock reads of
  time.Now() are threaded through as explicit parameters (the formatted
  string for stored fields, an integer nanosecond count for arithmetic).
* Go time.Parse of the standard library is external to the repository, so
  functions that call it take an explicit parse parameter of type
  String to Option Int (none models a parse error), instantiable with any
  concrete parser.
* Go ints and time.Duration (int64 nanoseconds) are modelled as Int; Go
  integer division truncates toward zero, which is Int.div.
-/

namespace AlgoHive

/-- Row of the tries table: models.Try. The primary key uuid is modelled as
a Nat assigned at insert time; the display-only User and Competition
association pointers carry no lifecycle state and are omitted. The Go Score
field is float64, but every write in the embedded code stores an integer
value, so it is modelled as Int (the conversions are exact). -/
structure Try where
  id : Nat
  puzzleID : String
  puzzleIndex : Int
  puzzleLvl : String
  step : Int
  startTime : String
  endTime : Option String
  attempts : Int
  score : Int
  lastMoveTime : Option String
  lastAnswer : Option String
  competitionID : String
  userID : String
deriving Repr, DecidableEq

/-- Error outcomes of the try services (tries_services.go package-level
errors and fmt.Errorf messages). -/
inductive TryError where
  | tryAlreadyFinished
  | failedToFetchTry
  | tryNotFound
  | failedToCreateTry
  | failedToUpdateTry
deriving Repr, DecidableEq

/-- Broadcast message realtime.TryUpdate; updateType is the string tag
"new" or "update". -/
structure TryUpdate where
  competitionID : String
  tryRow : Try
  updateType : String
deriving Repr, DecidableEq

/-- Result of one lifecycle operation: the tries table after the operation,
the value or error returned to the caller, and the broadcast events emitted
after commit. -/
structure OpResult where
  db : List Try
  result : Except TryError Try
  events : List TryUpdate
deriving Repr

/-- The WHERE clause used by every lookup in tries_services.go:
competition_id, user_id, puzzle_id, step and puzzle_index must all match. -/
def keyMatch (compID userID puzzleID : String) (step puzzleIndex : Int)
    (t : Try) : Bool :=
  t.competitionID == compID && t.userID == userID && t.puzzleID == puzzleID
    && t.step == step && t.puzzleIndex == puzzleIndex

/-- gorm First on the unique try key: the first row matching the key. -/
def findTry (db : List Try) (compID userID puzzleID : String)
    (step puzzleIndex : Int) : Option Try :=
  db.find? (keyMatch compID userID puzzleID step puzzleIndex)

/-- Number of rows of the table matching a given key. -/
def countKey (db : List Try) (compID userID puzzleID : String)
    (step puzzleIndex : Int) : Nat :=
  (db.filter (keyMatch compID userID puzzleID step puzzleIndex)).length

/-- gorm Save: replace the row carrying the same primary key. -/
def saveTry (db : List Try) (u : Try) : List Try :=
  db.map (fun r => if r.id == u.id then u else r)

/-- Fresh primary key for gorm Create (the database generates a new uuid,
distinct from every existing one). -/
def freshId (db : List Try) : Nat :=
  (db.foldr (fun t m => max t.id m) 0) + 1

/-- Go zero value models.Try{}, returned by the development-environment
branch of TriggerPuzzleFirstTry on insert failure. -/
def emptyTry : Try :=
  { id := 0, puzzleID := "", puzzleIndex := 0, puzzleLvl := "", step := 0,
    startTime := "", endTime := none, attempts := 0, score := 0,
    lastMoveTime := none, lastAnswer := none, competitionID := "", userID := "" }

/-- config.RateLimitConfig; durations in nanoseconds (Go time.Duration). -/
structure RateLimitConfig where
  attemptsThreshold1 : Int
  cooldownDuration1 : Int
  attemptsThreshold2 : Int
  cooldownDuration2 : Int
deriving Repr, DecidableEq

/-- One minute in nanoseconds (Go time.Minute). -/
def minuteNs : Int := 60 * 1000000000

/-- config.DefaultRateLimitConfig: 3 attempts / 3 minutes, then a second
tier of 5 attempts / 5 minutes. -/
def DefaultRateLimitConfig : RateLimitConfig :=
  { attemptsThreshold1 := 3, cooldownDuration1 := 3 * minuteNs,
    attemptsThreshold2 := 5, cooldownDuration2 := 5 * minuteNs }

/-- services.CheckRateLimit. The parse parameter models the standard
library call time.Parse(time.RFC3339, s), returning the parsed instant in
nanoseconds or none on error; now is time.Now() in nanoseconds. Returns
the blocked flag and the remaining cooldown duration. The metrics counter
increments in the source are observability side effects with no influence
on the returned value and are not modelled. -/
def CheckRateLimit (parse : String → Option Int) (now : Int)
    (t : Try) (cfg : RateLimitConfig) : Bool × Int :=
  match t.lastMoveTime with
  | none => (false, 0)
  | some s =>
    match parse s with
    | none => (false, 0)
    | some lastMove =>
      if t.attempts ≥ cfg.attemptsThreshold2 then
        let cooldownEnd := lastMove + cfg.cooldownDuration2
        if now < cooldownEnd then (true, cooldownEnd - now) else (false, 0)
      else if t.attempts ≥ cfg.attemptsThreshold1 then
        let cooldownEnd := lastMove + cfg.cooldownDuration1
        if now < cooldownEnd then (true, cooldownEnd - now) else (false, 0)
      else (false, 0)

/-- utils calculateBaseScore: base score table keyed by level and step.
Note the name of the second parameter in the source is step, and the table
distinguishes step 1 from step 2 within each level. -/
def calculateBaseScore (puzzleLvl : String) (step : Int) : Int :=
  if puzzleLvl == "EASY" then
    if step == 1 then 15 else if step == 2 then 35 else 0
  else if puzzleLvl == "MEDIUM" then
    if step == 1 then 35 else if step == 2 then 65 else 0
  else if puzzleLvl == "HARD" then
    if step == 1 then 65 else if step == 2 then 135 else 0
  else 0

/-- utils CalculateMultiplier: 1 + puzzleIndex / 100 with Go integer
division (truncation toward zero). -/
def CalculateMultiplier (puzzleIndex : Int) : Int :=
  1 + Int.tdiv puzzleIndex 100

/-- utils CalculateMalusFromAttempts. The source switch checks the
attempts-greater-than-3 case first, so the later cases are shadowed; the
embedding reproduces the source order. -/
def CalculateMalusFromAttempts (attemps : Int) : Int :=
  if attemps > 3 then -2
  else if attemps > 5 then -5
  else if attemps > 10 then -10
  else 0

/-- utils calculateTimeSpent: parse both timestamps with the layout
"2006-01-02 15:04:05.000000" (modelled by the parseLayout parameter,
returning nanoseconds or none), return 0 on any parse error, otherwise the
duration in whole minutes truncated toward zero (Go int conversion of
duration.Minutes()). -/
def calculateTimeSpent (parseLayout : String → Option Int)
    (startTime endTime : String) : Int :=
  match parseLayout startTime with
  | none => 0
  | some s =>
    match parseLayout endTime with
    | none => 0
    | some e => Int.tdiv (e - s) minuteNs

/-- utils CalculatePointsFromTimeSpent: time bonus or malus table keyed by
level with thresholds on elapsed minutes. The source switch falls through
to 0 on the uncovered boundary values (for example exactly 30 minutes on
EASY). -/
def CalculatePointsFromTimeSpent (parseLayout : String → Option Int)
    (puzzleLvl : String) (startTime endTime : String) : Int :=
  let timeSpent := calculateTimeSpent parseLayout startTime endTime
  if puzzleLvl == "EASY" then
    if timeSpent < 10 then 20
    else if timeSpent < 30 then 10
    else if timeSpent > 30 then -5
    else 0
  else if puzzleLvl == "MEDIUM" then
    if timeSpent < 20 then 20
    else if timeSpent < 40 then 10
    else if timeSpent > 40 then -5
    else 0
  else if puzzleLvl == "HARD" then
    if timeSpent < 40 then 75
    else if timeSpent < 90 then 40
    else if timeSpent < 120 then 20
    else 0
  else 0

/-- utils CalculateScore. The source computes
float64(baseScore + scoreFromTime + malus) * float64(multiplier); all
operands are integers of small magnitude, so the float64 arithmetic is
exact and the function is modelled over Int. The source passes puzzleIndex
as the step argument of calculateBaseScore, leaving the step parameter of
CalculateScore unused; the embedding reproduces this exactly. -/
def CalculateScore (parseLayout : String → Option Int) (puzzleLvl : String)
    (puzzleIndex _step : Int) (startTime endTime : String)
    (attempts : Int) : Int :=
  let baseScore := calculateBaseScore puzzleLvl puzzleIndex
  let scoreFromTime := CalculatePointsFromTimeSpent parseLayout puzzleLvl startTime endTime
  let multiplier := CalculateMultiplier puzzleIndex
  let malus := CalculateMalusFromAttempts attempts
  (baseScore + scoreFromTime + malus) * multiplier

/-- Score function written from the specification text for comparison:
base score keyed by level and the step argument, plus time bonus or malus,
plus attempts malus, multiplied by the index multiplier. Modelled from the
spec (section 4.3): the base score table is keyed by level and step. -/
def CalculateScoreSpec (parseLayout : String → Option Int) (puzzleLvl : String)
    (puzzleIndex step : Int) (startTime endTime : String)
    (attempts : Int) : Int :=
  let baseScore := calculateBaseScore puzzleLvl step
  let scoreFromTime := CalculatePointsFromTimeSpent parseLayout puzzleLvl startTime endTime
  let multiplier := CalculateMultiplier puzzleIndex
  let malus := CalculateMalusFromAttempts attempts
  (baseScore + scoreFromTime + malus) * multiplier

/-- The newTry literal built by TriggerPuzzleFirstTry: a fresh step-1 row
with attempts 0, start_time now, null end_time, last_answer, last_move_time
and score 0. -/
def newFirstTry (db : List Try) (compID puzzleID : String) (puzzleIndex : Int)
    (puzzleLvl userID now : String) : Try :=
  { id := freshId db, puzzleID := puzzleID, puzzleIndex := puzzleIndex,
    puzzleLvl := puzzleLvl, step := 1, startTime := now, endTime := none,
    attempts := 0, score := 0, lastMoveTime := none, lastAnswer := none,
    competitionID := compID, userID := userID }

/-- The mutation applied by UpdateTry to an open row: last_move_time now,
last_answer answer, attempts incremented. -/
def updatedTry (t : Try) (answer now : String) : Try :=
  { t with
    lastMoveTime := some now, lastAnswer := some answer,
    attempts := t.attempts + 1 }

/-- The mutation applied by EndTry to an open row: last_move_time now,
last_answer answer, attempts incremented, score 100, end_time now. -/
def endedTry (t : Try) (answer now : String) : Try :=
  { t with
    lastMoveTime := some now, lastAnswer := some answer,
    attempts := t.attempts + 1, score := 100, endTime := some now }

/-- The nextTry literal built by EndTry when step 1 completes: a fresh
step-2 row seeded with attempts 0 and null end_time, copying puzzle index
and level from the completed row. -/
def nextStepTry (db1 : List Try) (compID puzzleID : String) (existing : Try)
    (userID now : String) : Try :=
  { id := freshId db1, puzzleID := puzzleID,
    puzzleIndex := existing.puzzleIndex, puzzleLvl := existing.puzzleLvl,
    step := 2, startTime := now, endTime := none, attempts := 0, score := 0,
    lastMoveTime := none, lastAnswer := none, competitionID := compID,
    userID := userID }

/-- services.TriggerPuzzleFirstTry (transaction version of
tries_services.go). Inside one transaction the key is looked up with a row
lock; a hit commits and returns the existing row with no event; a miss
inserts a fresh step-1 row with attempts 0, start_time now, end_time null,
commits, and emits one broadcast event of kind new. The createFails flag
injects a database error on the INSERT (for example a uniqueness violation
raced in by a concurrent committed transaction): in that case the source
returns the zero Try and no error when config.Env is development, and
propagates failedToCreateTry otherwise, rolling the transaction back. The
post-commit user preload used only to enrich the broadcast payload is
modelled as succeeding. -/
def TriggerPuzzleFirstTry (db : List Try) (compID : String) (puzzleID : String)
    (puzzleIndex : Int) (puzzleLvl : String) (userID : String) (now : String)
    (createFails : Bool) (env : String) : OpResult :=
  match findTry db compID userID puzzleID 1 puzzleIndex with
  | some existingTry => { db := db, result := .ok existingTry, events := [] }
  | none =>
    let newTry : Try := newFirstTry db compID puzzleID puzzleIndex puzzleLvl userID now
    if createFails then
      if env == "development" then
        { db := db, result := .ok emptyTry, events := [] }
      else
        { db := db, result := .error .failedToCreateTry, events := [] }
    else
      let ev : TryUpdate :=
        { competitionID := compID, tryRow := newTry, updateType := "new" }
      { db := db ++ [newTry], result := .ok newTry, events := [ev] }

/-- services.GetPuzzleTry: plain lookup by the full key; a missing row is
reported as the try-not-found error, mirroring the gorm.ErrRecordNotFound
branch. -/
def GetPuzzleTry (db : List Try) (compID puzzleID : String)
    (puzzleIndex step : Int) (userID : String) : Except TryError Try :=
  match findTry db compID userID puzzleID step puzzleIndex with
  | none => .error .tryNotFound
  | some t => .ok t

/-- services.GetPuzzleFirstTry: wrapper fixing step 1. -/
def GetPuzzleFirstTry (db : List Try) (compID puzzleID : String)
    (puzzleIndex : Int) (userID : String) : Except TryError Try :=
  GetPuzzleTry db compID puzzleID puzzleIndex 1 userID

/-- services.UpdateTry (incorrect-submission path, transaction version).
Looks the row up under a lock; a missing row fails with the fetch error; a
row whose end_time is set rolls back and fails with tryAlreadyFinished; an
open row gets last_move_time now, last_answer answer, attempts incremented
by one, is saved, and an update event is emitted after commit. -/
def UpdateTry (db : List Try) (compID puzzleID : String)
    (puzzleIndex step : Int) (userID answer : String) (now : String) : OpResult :=
  match findTry db compID userID puzzleID step puzzleIndex with
  | none => { db := db, result := .error .failedToFetchTry, events := [] }
  | some existingTry =>
    if existingTry.endTime.isSome then
      { db := db, result := .error .tryAlreadyFinished, events := [] }
    else
      let updated : Try := updatedTry existingTry answer now
      let ev : TryUpdate :=
        { competitionID := updated.competitionID, tryRow := updated,
          updateType := "update" }
      { db := saveTry db updated, result := .ok updated, events := [ev] }

/-- services.EndTry (correct-submission path, transaction version). Looks
the row up under a lock; a missing row fails with the fetch error; a row
whose end_time is set rolls back and fails with tryAlreadyFinished; an
open row gets last_move_time now, last_answer answer, attempts incremented
by one, score 100, end_time now, and is saved; when step is 1 a fresh
step-2 row seeded with attempts 0 and null end_time is created in the same
transaction; after commit an update event for the completed row and, when
a step-2 row was created, a new event for it are emitted. -/
def EndTry (db : List Try) (compID puzzleID : String)
    (puzzleIndex step : Int) (userID answer : String) (now : String) : OpResult :=
  match findTry db compID userID puzzleID step puzzleIndex with
  | none => { db := db, result := .error .failedToFetchTry, events := [] }
  | some existingTry =>
    if existingTry.endTime.isSome then
      { db := db, result := .error .tryAlreadyFinished, events := [] }
    else
      let updated : Try := endedTry existingTry answer now
      let db1 := saveTry db updated
      if step == 1 then
        let nextTry : Try := nextStepTry db1 compID puzzleID existingTry userID now
        let evUpd : TryUpdate :=
          { competitionID := updated.competitionID, tryRow := updated,
            updateType := "update" }
        let evNew : TryUpdate :=
          { competitionID := nextTry.competitionID, tryRow := nextTry,
            updateType := "new" }
        { db := db1 ++ [nextTry], result := .ok updated, events := [evUpd, evNew] }
      else
        let evUpd : TryUpdate :=
          { competitionID := updated.competitionID, tryRow := updated,
            updateType := "update" }
        { db := db1, result := .ok updated, events := [evUpd] }

/-- Request body CompetitionTry of the legacy create-or-update handler. -/
structure CompetitionTry where
  competitionID : String
  puzzleId : String
  puzzleIndex : Int
  step : Int
  puzzleDifficulty : String
  solution : Option String
deriving Repr, DecidableEq

/-- handleTry of handlers/competitions/competition_tries.go, called by
NewCompetitionTry. Its lookup matches on competition, user, puzzle and
step only (no puzzle_index). A found unfinished row gets last_answer and
an attempts increment, and on a correct verdict a score increment and
end_time now, then is saved. A found finished row fails with the
try-already-finished error. When no row exists, a brand new row is
created with attempts 1 (and, on a correct verdict, score 1 and end_time
now). Returns the table and the error returned to the caller. -/
def handleTry (db : List Try) (userID : String) (req : CompetitionTry)
    (isCorrect : Bool) (now : String) : List Try × Option TryError :=
  match db.find? (fun t => t.competitionID == req.competitionID
      && t.userID == userID && t.puzzleID == req.puzzleId && t.step == req.step) with
  | some existingTry =>
    if existingTry.endTime.isSome then (db, some .tryAlreadyFinished)
    else
      let t1 : Try :=
        { existingTry with
          lastAnswer := req.solution,
          attempts := existingTry.attempts + 1 }
      let t2 : Try :=
        if isCorrect then { t1 with score := t1.score + 1, endTime := some now }
        else t1
      (saveTry db t2, none)
  | none =>
    let newTry : Try :=
      { id := freshId db, puzzleID := req.puzzleId,
        puzzleIndex := req.puzzleIndex, puzzleLvl := req.puzzleDifficulty,
        step := req.step, startTime := now, endTime := none, attempts := 1,
        score := 0, lastMoveTime := none, lastAnswer := req.solution,
        competitionID := req.competitionID, userID := userID }
    let newTry2 : Try :=
      if isCorrect then { newTry with score := 1, endTime := some now }
      else newTry
    (db ++ [newTry2], none)

/-- One client fan-out pass of realtime handleBroadcast over the clients
of the competition of the event: each client receives a WriteJSON push;
writeOk tells whether the push to a given client handle succeeds; a
failing client is closed and deleted from the set while the loop goes on.
Returns the clients that received the event and the surviving client
set. -/
def fanout (writeOk : Nat → Bool) (clients : List Nat) : List Nat × List Nat :=
  match clients with
  | [] => ([], [])
  | c :: rest =>
    let (delivered, kept) := fanout writeOk rest
    if writeOk c then (c :: delivered, c :: kept) else (delivered, kept)

/-- Per-competition client registry of the realtime package
(competitionClients), modelled as an association list from competition id
to the registered client handles. -/
def lookupClients (registry : List (String × List Nat)) (compID : String) :
    Option (List Nat) :=
  (registry.find? (fun p => p.1 == compID)).map (fun p => p.2)

/-- Dispatch of one broadcast event by the handleBroadcast loop: under the
registry mutex, the clients of the competition of the event are fanned
out; competitions without an entry deliver to nobody; other competitions
are untouched. Returns the updated registry and the clients that received
the event. -/
def dispatchEvent (writeOk : Nat → Bool) (registry : List (String × List Nat))
    (compID : String) : List (String × List Nat) × List Nat :=
  match lookupClients registry compID with
  | none => (registry, [])
  | some clients =>
    let (delivered, kept) := fanout writeOk clients
    (registry.map (fun p => if p.1 == compID then (p.1, kept) else p), delivered)

/-- Sequential submission driver: folds the incorrect-submission path
UpdateTry over a list of (answer, timestamp) pairs, mirroring a user
submitting repeatedly through the AnswerPuzzle handler. -/
def submitAll (compID puzzleID : String) (puzzleIndex step : Int)
    (userID : String) (db : List Try) (subs : List (String × String)) : List Try :=
  subs.foldl
    (fun d s => (UpdateTry d compID puzzleID puzzleIndex step userID s.1 s.2).db) db

/-- Concrete open (unfinished) step-1 row used to instantiate theorems. -/
def sampleOpen : Try :=
  { id := 7, puzzleID := "p1", puzzleIndex := 0, puzzleLvl := "EASY", step := 1,
    startTime := "T0", endTime := none, attempts := 0, score := 0,
    lastMoveTime := none, lastAnswer := none, competitionID := "c1",
    userID := "u1" }

/-- Concrete finished step-1 row used to instantiate theorems. -/
def sampleFinished : Try :=
  { id := 7, puzzleID := "p1", puzzleIndex := 0, puzzleLvl := "EASY", step := 1,
    startTime := "T0", endTime := some "T9", attempts := 4, score := 100,
    lastMoveTime := some "T9", lastAnswer := some "a", competitionID := "c1",
    userID := "u1" }

/-! Helper lemmas about the store primitives. -/

lemma keyMatch_fields {c u p : String} {s i : Int} {t : Try}
    (h : keyMatch c u p s i t = true) :
    t.competitionID = c ∧ t.userID = u ∧ t.puzzleID = p ∧ t.step = s ∧
      t.puzzleIndex = i := by
  simp only [keyMatch, Bool.and_eq_true, beq_iff_eq] at h
  exact ⟨h.1.1.1.1, h.1.1.1.2, h.1.1.2, h.1.2, h.2⟩

lemma findTry_some_keyMatch {db : List Try} {c u p : String} {s i : Int} {t : Try}
    (h : findTry db c u p s i = some t) : keyMatch c u p s i t = true :=
  List.find?_some h

lemma findTry_some_mem {db : List Try} {c u p : String} {s i : Int} {t : Try}
    (h : findTry db c u p s i = some t) : t ∈ db :=
  List.mem_of_find?_eq_some h

lemma saveTry_length (db : List Try) (u : Try) :
    (saveTry db u).length = db.length := by
  simp [saveTry]

lemma saveTry_cons (hd : Try) (rest : List Try) (u : Try) :
    saveTry (hd :: rest) u
      = (if hd.id == u.id then u else hd) :: saveTry rest u := rfl

lemma find?_saveTry {db : List Try} {q : Try → Bool} {t u : Try}
    (hf : db.find? q = some t) (hid : u.id = t.id) (hu : q u = true) :
    (saveTry db u).find? q = some u := by
  induction db with
  | nil => simp at hf
  | cons hd rest ih =>
    by_cases hidq : hd.id = u.id
    · have hb : (hd.id == u.id) = true := by simpa using hidq
      simp [saveTry_cons, hb, List.find?_cons, hu]
    · have hb : (hd.id == u.id) = false := by simpa using hidq
      by_cases hq : q hd
      · rw [List.find?_cons_of_pos _ hq] at hf
        have hdt : hd = t := by simpa using hf
        have : hd.id = u.id := by rw [hdt]; exact hid.symm
        exact absurd this hidq
      · rw [List.find?_cons_of_neg _ hq] at hf
        simp [saveTry_cons, hb, List.find?_cons, hq, ih hf]

lemma filter_saveTry_eq {db : List Try} {u : Try} {q : Try → Bool}
    (hqu : q u = false) (h : ∀ r ∈ db, r.id = u.id → q r = false) :
    (saveTry db u).filter q = db.filter q := by
  induction db with
  | nil => rfl
  | cons hd rest ih =>
    have hrest : ∀ r ∈ rest, r.id = u.id → q r = false :=
      fun r hr => h r (List.mem_cons_of_mem _ hr)
    by_cases hidq : hd.id = u.id
    · have hqhd : q hd = false := h hd (List.mem_cons_self _ _) hidq
      have hb : (hd.id == u.id) = true := by simpa using hidq
      simp [saveTry_cons, hb, List.filter_cons, hqu, hqhd, ih hrest]
    · have hb : (hd.id == u.id) = false := by simpa using hidq
      by_cases hqhd : q hd
      · simp [saveTry_cons, hb, List.filter_cons, hqhd, ih hrest]
      · have hqhd' : q hd = false := by simpa using hqhd
        simp [saveTry_cons, hb, List.filter_cons, hqhd', ih hrest]

lemma filter_saveTry_length {db : List Try} {u : Try} {q : Try → Bool}
    (h : ∀ r ∈ db, r.id = u.id → q r = q u) :
    ((saveTry db u).filter q).length = (db.filter q).length := by
  induction db with
  | nil => rfl
  | cons hd rest ih =>
    have hrest : ∀ r ∈ rest, r.id = u.id → q r = q u :=
      fun r hr => h r (List.mem_cons_of_mem _ hr)
    by_cases hidq : hd.id = u.id
    · have hqhd : q hd = q u := h hd (List.mem_cons_self _ _) hidq
      have hb : (hd.id == u.id) = true := by simpa using hidq
      by_cases hq : q u
      · simp [saveTry_cons, hb, List.filter_cons, hq, hqhd.trans hq, ih hrest]
      · have hq' : q u = false := by simpa using hq
        simp [saveTry_cons, hb, List.filter_cons, hq', hqhd.trans hq', ih hrest]
    · have hb : (hd.id == u.id) = false := by simpa using hidq
      by_cases hqhd : q hd
      · simp [saveTry_cons, hb, List.filter_cons, hqhd, ih hrest]
      · have hqhd' : q hd = false := by simpa using hqhd
        simp [saveTry_cons, hb, List.filter_cons, hqhd', ih hrest]

lemma eq_of_same_id_of_nodup {db : List Try}
    (hids : (db.map Try.id).Nodup) {t : Try} (ht : t ∈ db) :
    ∀ r ∈ db, r.id = t.id → r = t := by
  intro r hr hid
  exact List.inj_on_of_nodup_map hids hr ht hid

lemma find?_append_none {α} {q : α → Bool} {l1 : List α} (l2 : List α)
    (h : l1.find? q = none) : (l1 ++ l2).find? q = l2.find? q := by
  rw [List.find?_append, h, Option.none_or]

lemma filter_eq_nil_of_find?_none {α} {q : α → Bool} {l : List α}
    (h : l.find? q = none) : l.filter q = [] := by
  rw [List.filter_eq_nil_iff]
  intro a ha
  simpa using List.find?_eq_none.1 h a ha

/-! Support lemmas about the constructed rows and the operations. -/

lemma keyMatch_newFirstTry (db : List Try) (compID puzzleID : String)
    (puzzleIndex : Int) (puzzleLvl userID now : String) :
    keyMatch compID userID puzzleID 1 puzzleIndex
      (newFirstTry db compID puzzleID puzzleIndex puzzleLvl userID now) = true := by
  simp [keyMatch, newFirstTry]

lemma keyMatch_updatedTry (compID userID puzzleID : String)
    (step puzzleIndex : Int) (t : Try) (answer now : String) :
    keyMatch compID userID puzzleID step puzzleIndex (updatedTry t answer now)
      = keyMatch compID userID puzzleID step puzzleIndex t := rfl

lemma keyMatch_endedTry (compID userID puzzleID : String)
    (step puzzleIndex : Int) (t : Try) (answer now : String) :
    keyMatch compID userID puzzleID step puzzleIndex (endedTry t answer now)
      = keyMatch compID userID puzzleID step puzzleIndex t := rfl

lemma updateTry_success (answer now : String) {db : List Try}
    {compID puzzleID userID : String} {puzzleIndex step : Int} {t : Try}
    (hf : findTry db compID userID puzzleID step puzzleIndex = some t)
    (ho : t.endTime = none) :
    UpdateTry db compID puzzleID puzzleIndex step userID answer now
      = { db := saveTry db (updatedTry t answer now),
          result := .ok (updatedTry t answer now),
          events := [{ competitionID := (updatedTry t answer now).competitionID,
                       tryRow := updatedTry t answer now,
                       updateType := "update" }] } := by
  simp [UpdateTry, hf, ho]

lemma findTry_after_updateTry (answer now : String) {db : List Try}
    {compID puzzleID userID : String} {puzzleIndex step : Int} {t : Try}
    (hf : findTry db compID userID puzzleID step puzzleIndex = some t) :
    findTry (saveTry db (updatedTry t answer now))
        compID userID puzzleID step puzzleIndex
      = some (updatedTry t answer now) :=
  find?_saveTry hf rfl
    ((keyMatch_updatedTry compID userID puzzleID step puzzleIndex t answer
        now).trans (findTry_some_keyMatch hf))

lemma submitAll_attempts (compID puzzleID : String) (puzzleIndex step : Int)
    (userID : String) (subs : List (String × String)) :
    ∀ (db : List Try) (t : Try),
      findTry db compID userID puzzleID step puzzleIndex = some t →
      t.endTime = none →
      ∃ r, findTry (submitAll compID puzzleID puzzleIndex step userID db subs)
              compID userID puzzleID step puzzleIndex = some r ∧
           r.attempts = t.attempts + subs.length ∧ r.endTime = none := by
  induction subs with
  | nil =>
    intro db t hf ho
    exact ⟨t, hf, by simp, ho⟩
  | cons s rest ih =>
    intro db t hf ho
    have hstep := updateTry_success s.1 s.2 hf ho
    have hdb : (UpdateTry db compID puzzleID puzzleIndex step userID s.1 s.2).db
        = saveTry db (updatedTry t s.1 s.2) := by rw [hstep]
    have hfind := findTry_after_updateTry s.1 s.2 hf
    obtain ⟨r, h1, h2, h3⟩ :=
      ih (saveTry db (updatedTry t s.1 s.2)) (updatedTry t s.1 s.2) hfind ho
    refine ⟨r, ?_, ?_, h3⟩
    · rw [submitAll, List.foldl_cons, hdb]
      exact h1
    · rw [h2]
      simp [updatedTry]
      omega

lemma endTry_success {db : List Try} {compID puzzleID userID answer now : String}
    {puzzleIndex step : Int} {t : Try}
    (hf : findTry db compID userID puzzleID step puzzleIndex = some t)
    (ho : t.endTime = none) :
    (EndTry db compID puzzleID puzzleIndex step userID answer now).result
      = .ok (endedTry t answer now) := by
  unfold EndTry
  rw [hf]
  simp only [ho, Option.isSome_none, Bool.false_eq_true, if_false]
  split <;> rfl

lemma fanout_eq_filter (writeOk : Nat → Bool) (clients : List Nat) :
    fanout writeOk clients = (clients.filter writeOk, clients.filter writeOk) := by
  induction clients with
  | nil => rfl
  | cons c rest ih =>
    by_cases h : writeOk c
    · simp [fanout, ih, List.filter_cons, h]
    · have h2 : writeOk c = false := by simpa using h
      simp [fanout, ih, List.filter_cons, h2]

lemma lookupClients_map_replace (registry : List (String × List Nat))
    (compID : String) (kept : List Nat) (clients : List Nat)
    (hc : lookupClients registry compID = some clients) :
    lookupClients
        (registry.map (fun p => if p.1 == compID then (p.1, kept) else p)) compID
      = some kept := by
  induction registry with
  | nil => simp [lookupClients] at hc
  | cons hd rest ih =>
    by_cases h : (hd.1 == compID) = true
    · rw [List.map_cons, if_pos h]
      unfold lookupClients
      rw [List.find?_cons_of_pos _ (by simpa using h)]
      rfl
    · have hb : (hd.1 == compID) = false := by simpa using h
      have hc2 : lookupClients rest compID = some clients := by
        unfold lookupClients at hc
        rwa [List.find?_cons_of_neg _ (by simp [hb])] at hc
      rw [List.map_cons, if_neg h]
      unfold lookupClients
      rw [List.find?_cons_of_neg _ (by simp [hb])]
      exact ih hc2

/-! Claim theorems. -/

/-- C1: TriggerFirstAttempt is idempotent. If a step-1 Attempt already
exists for the key (competition, user, puzzleID, puzzleIndex), the call
returns the existing row, without error, without inserting and without
broadcasting; if none exists, it inserts exactly one new row with
attempts 0, start_time now and null end_time and returns it, so a second
call returns the same Attempt and the table holds exactly one row for the
key. -/
theorem triggerFirstAttempt_idempotent
    (db : List Try) (compID puzzleID puzzleLvl userID now now2 env : String)
    (puzzleIndex : Int) :
    (∀ t, findTry db compID userID puzzleID 1 puzzleIndex = some t →
        TriggerPuzzleFirstTry db compID puzzleID puzzleIndex puzzleLvl userID now
            false env
          = { db := db, result := .ok t, events := [] }) ∧
    (findTry db compID userID puzzleID 1 puzzleIndex = none →
      ∃ nt,
        TriggerPuzzleFirstTry db compID puzzleID puzzleIndex puzzleLvl userID now
            false env
          = { db := db ++ [nt], result := .ok nt,
              events := [{ competitionID := compID, tryRow := nt,
                           updateType := "new" }] } ∧
        nt.step = 1 ∧ nt.attempts = 0 ∧ nt.startTime = now ∧ nt.endTime = none ∧
        countKey (db ++ [nt]) compID userID puzzleID 1 puzzleIndex = 1 ∧
        TriggerPuzzleFirstTry (db ++ [nt]) compID puzzleID puzzleIndex puzzleLvl
            userID now2 false env
          = { db := db ++ [nt], result := .ok nt, events := [] }) := by
  constructor
  · intro t ht
    simp [TriggerPuzzleFirstTry, ht]
  · intro hn
    refine ⟨newFirstTry db compID puzzleID puzzleIndex puzzleLvl userID now,
            ?_, rfl, rfl, rfl, rfl, ?_, ?_⟩
    · simp [TriggerPuzzleFirstTry, hn]
    · have h1 : db.filter (keyMatch compID userID puzzleID 1 puzzleIndex) = [] :=
        filter_eq_nil_of_find?_none hn
      simp [countKey, List.filter_append, h1, List.filter_cons,
        keyMatch_newFirstTry]
    · have hfind : findTry
          (db ++ [newFirstTry db compID puzzleID puzzleIndex puzzleLvl userID now])
          compID userID puzzleID 1 puzzleIndex
          = some (newFirstTry db compID puzzleID puzzleIndex puzzleLvl userID
              now) := by
        unfold findTry at hn ⊢
        rw [find?_append_none _ hn]
        exact List.find?_cons_of_pos _ (keyMatch_newFirstTry _ _ _ _ _ _ _)
      simp [TriggerPuzzleFirstTry, hfind]

/-- Witness for C1: on an empty table, one trigger call for a concrete key
leaves exactly one row for that key. -/
theorem triggerFirstAttempt_idempotent_witness :
    countKey ((TriggerPuzzleFirstTry [] "c1" "p1" 0 "EASY" "u1" "T0" false
        "production").db) "c1" "u1" "p1" 1 0 = 1 := by
  obtain ⟨nt, h1, _, _, _, _, h6, _⟩ :=
    (triggerFirstAttempt_idempotent [] "c1" "p1" "EASY" "u1" "T0" "T1"
        "production" 0).2 rfl
  rw [h1]
  exact h6

/-- C2: once an Attempt has a non-null end_time, both submission paths
(UpdateTry and EndTry) on its key fail with the try-already-finished error
and leave the table, hence every stored field, unchanged, emitting no
event. -/
theorem finished_try_rejects_submissions
    (db : List Try) (compID puzzleID userID answer now : String)
    (puzzleIndex step : Int) (t : Try) (e : String)
    (hf : findTry db compID userID puzzleID step puzzleIndex = some t)
    (he : t.endTime = some e) :
    UpdateTry db compID puzzleID puzzleIndex step userID answer now
      = { db := db, result := .error .tryAlreadyFinished, events := [] } ∧
    EndTry db compID puzzleID puzzleIndex step userID answer now
      = { db := db, result := .error .tryAlreadyFinished, events := [] } := by
  constructor
  · simp [UpdateTry, hf, he]
  · simp [EndTry, hf, he]

/-- Witness for C2: on a concrete finished row, both paths reject and
leave the table unchanged. -/
theorem finished_try_rejects_submissions_witness :
    UpdateTry [sampleFinished] "c1" "p1" 0 1 "u1" "ans" "T5"
      = { db := [sampleFinished], result := .error .tryAlreadyFinished,
          events := [] } ∧
    EndTry [sampleFinished] "c1" "p1" 0 1 "u1" "ans" "T5"
      = { db := [sampleFinished], result := .error .tryAlreadyFinished,
          events := [] } :=
  finished_try_rejects_submissions [sampleFinished] "c1" "p1" "u1" "ans" "T5"
    0 1 sampleFinished "T9" rfl rfl

/-- C3: completing step 1 on an open row appends exactly one step-2 row
for the same key, seeded with attempts 0 and null end_time; UpdateTry
never changes the number of step-2 rows for the key; EndTry on a step
other than 1 adds no row; TriggerPuzzleFirstTry never adds a step-2 row.
So a step-2 Attempt appears only as the side effect of completing
step 1. -/
theorem step_cascade
    (db : List Try) (compID puzzleID userID answer now : String)
    (puzzleIndex step : Int) (t : Try)
    (hids : (db.map Try.id).Nodup) :
    (findTry db compID userID puzzleID 1 puzzleIndex = some t →
      t.endTime = none →
      ∃ nt, ((EndTry db compID puzzleID puzzleIndex 1 userID answer now).db).filter
              (keyMatch compID userID puzzleID 2 puzzleIndex)
            = db.filter (keyMatch compID userID puzzleID 2 puzzleIndex) ++ [nt] ∧
          nt.step = 2 ∧ nt.attempts = 0 ∧ nt.endTime = none ∧
          nt.competitionID = compID ∧ nt.userID = userID ∧
          nt.puzzleID = puzzleID ∧ nt.puzzleIndex = puzzleIndex) ∧
    (((UpdateTry db compID puzzleID puzzleIndex step userID answer now).db).filter
        (keyMatch compID userID puzzleID 2 puzzleIndex)).length
      = (db.filter (keyMatch compID userID puzzleID 2 puzzleIndex)).length ∧
    (step ≠ 1 →
      ((EndTry db compID puzzleID puzzleIndex step userID answer now).db).length
        = db.length) ∧
    (∀ (lvl env : String) (cf : Bool),
      ((TriggerPuzzleFirstTry db compID puzzleID puzzleIndex lvl userID now cf
          env).db).filter (keyMatch compID userID puzzleID 2 puzzleIndex)
        = db.filter (keyMatch compID userID puzzleID 2 puzzleIndex)) := by
  refine ⟨?_, ?_, ?_, ?_⟩
  · intro hf ho
    obtain ⟨hfc, hfu, hfp, hfs, hfi⟩ := keyMatch_fields (findTry_some_keyMatch hf)
    have hdb : (EndTry db compID puzzleID puzzleIndex 1 userID answer now).db
        = saveTry db (endedTry t answer now)
          ++ [nextStepTry (saveTry db (endedTry t answer now)) compID puzzleID t
              userID now] := by
      simp [EndTry, hf, ho]
    have hqt : keyMatch compID userID puzzleID 2 puzzleIndex t = false := by
      simp [keyMatch, hfs]
    have hqe : keyMatch compID userID puzzleID 2 puzzleIndex
        (endedTry t answer now) = false :=
      (keyMatch_endedTry compID userID puzzleID 2 puzzleIndex t answer now).trans
        hqt
    have hsave : (saveTry db (endedTry t answer now)).filter
          (keyMatch compID userID puzzleID 2 puzzleIndex)
        = db.filter (keyMatch compID userID puzzleID 2 puzzleIndex) := by
      apply filter_saveTry_eq hqe
      intro r hr hid
      have hrt : r = t :=
        eq_of_same_id_of_nodup hids (findTry_some_mem hf) r hr hid
      rw [hrt]
      exact hqt
    have hqn : keyMatch compID userID puzzleID 2 puzzleIndex
        (nextStepTry (saveTry db (endedTry t answer now)) compID puzzleID t
          userID now) = true := by
      simp [keyMatch, nextStepTry, hfi]
    refine ⟨nextStepTry (saveTry db (endedTry t answer now)) compID puzzleID t
        userID now, ?_, rfl, rfl, rfl, rfl, rfl, rfl, hfi⟩
    rw [hdb, List.filter_append, hsave]
    simp [List.filter_cons, hqn]
  · cases hfb : findTry db compID userID puzzleID step puzzleIndex with
    | none => simp [UpdateTry, hfb]
    | some t2 =>
      cases he2 : t2.endTime with
      | some e => simp [UpdateTry, hfb, he2]
      | none =>
        rw [updateTry_success answer now hfb he2]
        apply filter_saveTry_length
        intro r hr hid
        have hrt : r = t2 :=
          eq_of_same_id_of_nodup hids (findTry_some_mem hfb) r hr hid
        rw [hrt]
        rfl
  · intro hstep
    have hb : (step == 1) = false := by simpa using hstep
    cases hfb : findTry db compID userID puzzleID step puzzleIndex with
    | none => simp [EndTry, hfb]
    | some t2 =>
      cases he2 : t2.endTime with
      | some e => simp [EndTry, hfb, he2]
      | none => simp [EndTry, hfb, he2, hb, saveTry_length]
  · intro lvl env cf
    cases hfb : findTry db compID userID puzzleID 1 puzzleIndex with
    | some t2 => simp [TriggerPuzzleFirstTry, hfb]
    | none =>
      cases cf with
      | true =>
        cases henv : (env == "development") with
        | true => simp [TriggerPuzzleFirstTry, hfb, henv]
        | false => simp [TriggerPuzzleFirstTry, hfb, henv]
      | false =>
        have hq : keyMatch compID userID puzzleID 2 puzzleIndex
            (newFirstTry db compID puzzleID puzzleIndex lvl userID now)
              = false := by
          simp [keyMatch, newFirstTry]
        simp [TriggerPuzzleFirstTry, hfb, List.filter_append, List.filter_cons,
          hq]

/-- Witness for C3: completing a concrete open step-1 row leaves exactly
one step-2 row for its key. -/
theorem step_cascade_witness :
    (((EndTry [sampleOpen] "c1" "p1" 0 1 "u1" "ans" "T5").db).filter
        (keyMatch "c1" "u1" "p1" 2 0)).length = 1 := by
  obtain ⟨nt, h1, _⟩ :=
    (step_cascade [sampleOpen] "c1" "p1" "u1" "ans" "T5" 0 1 sampleOpen
        (by decide)).1 rfl rfl
  rw [h1]
  have he : ([sampleOpen].filter (keyMatch "c1" "u1" "p1" 2 0)) = [] := rfl
  rw [he]
  rfl

/-- C4: CheckRateLimit returns not blocked when last_move_time is null;
otherwise, walking the thresholds from highest to lowest, an Attempt at or
above threshold2 is blocked until last_move_time plus cooldown2 when that
instant is in the future, one below threshold2 but at or above threshold1
is blocked until last_move_time plus cooldown1 when that instant is in the
future, and anything else is not blocked; in particular under the default
config attempts 3 with last move two minutes ago is blocked with one
minute remaining, and with last move four minutes ago is not blocked. -/
theorem checkRateLimit_spec (parse : String → Option Int) (now : Int)
    (t : Try) (cfg : RateLimitConfig) (s : String) (lm : Int) :
    (t.lastMoveTime = none → CheckRateLimit parse now t cfg = (false, 0)) ∧
    (t.lastMoveTime = some s → parse s = some lm →
      ((t.attempts ≥ cfg.attemptsThreshold2 →
          CheckRateLimit parse now t cfg =
            if now < lm + cfg.cooldownDuration2
            then (true, lm + cfg.cooldownDuration2 - now) else (false, 0)) ∧
       (¬ t.attempts ≥ cfg.attemptsThreshold2 →
          t.attempts ≥ cfg.attemptsThreshold1 →
          CheckRateLimit parse now t cfg =
            if now < lm + cfg.cooldownDuration1
            then (true, lm + cfg.cooldownDuration1 - now) else (false, 0)) ∧
       (¬ t.attempts ≥ cfg.attemptsThreshold2 →
          ¬ t.attempts ≥ cfg.attemptsThreshold1 →
          CheckRateLimit parse now t cfg = (false, 0)))) ∧
    (t.lastMoveTime = some s → parse s = some (now - 2 * minuteNs) →
      t.attempts = 3 →
      CheckRateLimit parse now t DefaultRateLimitConfig = (true, minuteNs)) ∧
    (t.lastMoveTime = some s → parse s = some (now - 4 * minuteNs) →
      t.attempts = 3 →
      CheckRateLimit parse now t DefaultRateLimitConfig = (false, 0)) := by
  refine ⟨fun h => by simp [CheckRateLimit, h], fun hs hp => ⟨?_, ?_, ?_⟩, ?_, ?_⟩
  · intro h2
    simp [CheckRateLimit, hs, hp, h2]
  · intro hn2 h1
    simp [CheckRateLimit, hs, hp, hn2, h1]
  · intro hn2 hn1
    simp [CheckRateLimit, hs, hp, hn2, hn1]
  · intro hs hp ha
    simp [CheckRateLimit, hs, hp, ha, DefaultRateLimitConfig, minuteNs]
    rw [if_pos (by omega)]
    simp only [Prod.mk.injEq, true_and]
    omega
  · intro hs hp ha
    simp [CheckRateLimit, hs, hp, ha, DefaultRateLimitConfig, minuteNs]
    omega

/-- Witness for C4: a concrete attempt with three tries whose last move
was two minutes ago is blocked for one more minute under the default
config. -/
theorem checkRateLimit_spec_witness :
    CheckRateLimit (fun _ => some (0 - 2 * minuteNs)) 0
      { emptyTry with attempts := 3, lastMoveTime := some "LM" }
      DefaultRateLimitConfig = (true, minuteNs) :=
  (checkRateLimit_spec (fun _ => some (0 - 2 * minuteNs)) 0
      { emptyTry with attempts := 3, lastMoveTime := some "LM" }
      DefaultRateLimitConfig "LM" 0).2.2.1 rfl rfl rfl

/-- C5: on an open row, each processed submission (incorrect via UpdateTry
or correct via EndTry) increments the stored attempts counter by exactly
one; folding K incorrect submissions from attempts 0 leaves attempts K,
and a final correct submission makes it K plus one. -/
theorem attempts_increment
    (db : List Try) (compID puzzleID userID answer now : String)
    (puzzleIndex step : Int) (t : Try)
    (hf : findTry db compID userID puzzleID step puzzleIndex = some t)
    (ho : t.endTime = none) :
    (∃ r, (UpdateTry db compID puzzleID puzzleIndex step userID answer
            now).result = .ok r ∧ r.attempts = t.attempts + 1 ∧
          findTry (UpdateTry db compID puzzleID puzzleIndex step userID answer
              now).db compID userID puzzleID step puzzleIndex = some r) ∧
    (∃ r, (EndTry db compID puzzleID puzzleIndex step userID answer now).result
            = .ok r ∧ r.attempts = t.attempts + 1) ∧
    (t.attempts = 0 → ∀ subs : List (String × String),
      ∃ r, findTry (submitAll compID puzzleID puzzleIndex step userID db subs)
              compID userID puzzleID step puzzleIndex = some r ∧
           r.attempts = subs.length ∧ r.endTime = none ∧
           ∃ rr, (EndTry (submitAll compID puzzleID puzzleIndex step userID db
                      subs) compID puzzleID puzzleIndex step userID answer
                    now).result = .ok rr ∧
                 rr.attempts = subs.length + 1) := by
  refine ⟨?_, ?_, ?_⟩
  · refine ⟨updatedTry t answer now, ?_, by simp [updatedTry], ?_⟩
    · rw [updateTry_success answer now hf ho]
    · rw [updateTry_success answer now hf ho]
      exact findTry_after_updateTry answer now hf
  · exact ⟨endedTry t answer now, endTry_success hf ho, by simp [endedTry]⟩
  · intro h0 subs
    obtain ⟨r, h1, h2, h3⟩ :=
      submitAll_attempts compID puzzleID puzzleIndex step userID subs db t hf ho
    refine ⟨r, h1, by omega, h3,
      ⟨endedTry r answer now, endTry_success h1 h3, ?_⟩⟩
    simp [endedTry]
    omega

/-- Witness for C5: two incorrect submissions on a fresh concrete row
leave the stored attempts counter at two. -/
theorem attempts_increment_witness :
    (findTry (submitAll "c1" "p1" 0 1 "u1" [sampleOpen]
        [("a1", "T1"), ("a2", "T2")]) "c1" "u1" "p1" 1 0).map Try.attempts
      = some 2 := by
  obtain ⟨r, h1, h2, _, _⟩ :=
    (attempts_increment [sampleOpen] "c1" "p1" "u1" "ans" "T9" 0 1 sampleOpen
        rfl rfl).2.2 rfl [("a1", "T1"), ("a2", "T2")]
  rw [h1]
  simpa using h2

/-- Counterexample for C6: the legacy handleTry path, cited by the claim,
does not fail when no Attempt exists for the submitted key; it creates a
brand new row with attempts 1 and reports no error. -/
theorem handleTry_creates_row_when_absent :
    (handleTry [] "u1"
        { competitionID := "c1", puzzleId := "p1", puzzleIndex := 0, step := 1,
          puzzleDifficulty := "EASY", solution := some "guess" } false
        "2025-01-01T00:00:00Z").2 = none ∧
    ((handleTry [] "u1"
        { competitionID := "c1", puzzleId := "p1", puzzleIndex := 0, step := 1,
          puzzleDifficulty := "EASY", solution := some "guess" } false
        "2025-01-01T00:00:00Z").1).length = 1 ∧
    ((handleTry [] "u1"
        { competitionID := "c1", puzzleId := "p1", puzzleIndex := 0, step := 1,
          puzzleDifficulty := "EASY", solution := some "guess" } false
        "2025-01-01T00:00:00Z").1).map Try.attempts = [1] :=
  ⟨rfl, rfl, rfl⟩

/-- C6 (amended): in the AnswerPuzzle flow, a submission for a key with no
existing Attempt fails (GetPuzzleTry with the try-not-found error,
UpdateTry and EndTry with the fetch error) and creates no row; the legacy
NewCompetitionTry handleTry path instead creates a fresh Attempt with
attempts 1 and no error when no row matches its (index-less) lookup. -/
theorem submission_requires_existing_try
    (db : List Try) (compID puzzleID userID answer now : String)
    (puzzleIndex step : Int) (req : CompetitionTry) (isCorrect : Bool)
    (hn : findTry db compID userID puzzleID step puzzleIndex = none) :
    GetPuzzleTry db compID puzzleID puzzleIndex step userID
      = .error .tryNotFound ∧
    UpdateTry db compID puzzleID puzzleIndex step userID answer now
      = { db := db, result := .error .failedToFetchTry, events := [] } ∧
    EndTry db compID puzzleID puzzleIndex step userID answer now
      = { db := db, result := .error .failedToFetchTry, events := [] } ∧
    (db.find? (fun t => t.competitionID == req.competitionID
          && t.userID == userID && t.puzzleID == req.puzzleId
          && t.step == req.step) = none →
      (handleTry db userID req isCorrect now).2 = none ∧
      (handleTry db userID req isCorrect now).1.length = db.length + 1) := by
  refine ⟨?_, ?_, ?_, ?_⟩
  · simp [GetPuzzleTry, hn]
  · simp [UpdateTry, hn]
  · simp [EndTry, hn]
  · intro hmiss
    constructor
    · simp [handleTry, hmiss]
    · simp [handleTry, hmiss]

/-- Witness for C6 (amended): on an empty table a concrete submission
fails with try-not-found and the fetch error, creating nothing. -/
theorem submission_requires_existing_try_witness :
    GetPuzzleTry ([] : List Try) "c1" "p1" 0 1 "u1" = .error .tryNotFound ∧
    UpdateTry ([] : List Try) "c1" "p1" 0 1 "u1" "a" "T0"
      = { db := [], result := .error .failedToFetchTry, events := [] } := by
  have h := submission_requires_existing_try [] "c1" "p1" "u1" "a" "T0" 0 1
      { competitionID := "c1", puzzleId := "p1", puzzleIndex := 0, step := 1,
        puzzleDifficulty := "EASY", solution := none } false rfl
  exact ⟨h.1, h.2.1⟩

/-- Counterexample for C7: when the insert inside TriggerPuzzleFirstTry
fails (uniqueness violation raced in by a concurrent caller) outside the
development environment, the error is propagated to the caller as the
create failure and no re-fetch happens, contrary to the claimed local
recovery. -/
theorem trigger_insert_failure_propagates :
    TriggerPuzzleFirstTry [] "c1" "p1" 0 "EASY" "u1" "T0" true "production"
      = { db := [], result := .error .failedToCreateTry, events := [] } := rfl

/-- C7 (amended): on insert failure TriggerPuzzleFirstTry does not
re-fetch: in any environment other than development it propagates the
create failure to the caller; in development it swallows the error and
returns the zero Try with no error. -/
theorem trigger_insert_failure_behavior
    (db : List Try) (compID puzzleID puzzleLvl userID now env : String)
    (puzzleIndex : Int)
    (hn : findTry db compID userID puzzleID 1 puzzleIndex = none) :
    (env ≠ "development" →
      TriggerPuzzleFirstTry db compID puzzleID puzzleIndex puzzleLvl userID now
          true env
        = { db := db, result := .error .failedToCreateTry, events := [] }) ∧
    TriggerPuzzleFirstTry db compID puzzleID puzzleIndex puzzleLvl userID now
        true "development"
      = { db := db, result := .ok emptyTry, events := [] } := by
  constructor
  · intro henv
    have hb : (env == "development") = false := by simpa using henv
    simp [TriggerPuzzleFirstTry, hn, hb]
  · simp [TriggerPuzzleFirstTry, hn]

/-- Witness for C7 (amended): in the development environment a failing
insert yields the zero Try and no error. -/
theorem trigger_insert_failure_behavior_witness :
    TriggerPuzzleFirstTry ([] : List Try) "c1" "p1" 0 "EASY" "u1" "T0" true
        "development"
      = { db := [], result := .ok emptyTry, events := [] } :=
  (trigger_insert_failure_behavior [] "c1" "p1" "EASY" "u1" "T0" "prod" 0 rfl).2

/-- C8: CalculateScore ignores its step argument entirely, because the
source passes puzzleIndex where calculateBaseScore expects the step; at
level EASY, index 0, step 2, unparseable timestamps and 0 attempts the
code yields 20 while the specified formula (base keyed by level and step)
yields 55, the EASY step-2 base being 35. -/
theorem calculateScore_ignores_step :
    (∀ (parseLayout : String → Option Int) (lvl : String) (idx s1 s2 : Int)
        (st en : String) (a : Int),
        CalculateScore parseLayout lvl idx s1 st en a
          = CalculateScore parseLayout lvl idx s2 st en a) ∧
    CalculateScore (fun _ => none) "EASY" 0 2 "" "" 0 = 20 ∧
    CalculateScoreSpec (fun _ => none) "EASY" 0 2 "" "" 0 = 55 ∧
    calculateBaseScore "EASY" 2 = 35 ∧
    calculateBaseScore "EASY" 0 = 0 :=
  ⟨fun _ _ _ _ _ _ _ _ => rfl, rfl, rfl, rfl, rfl⟩

/-- C9: dispatching one event delivers it exactly to the subscribers of
its competition whose write succeeds; a subscriber whose write fails is
removed from the registry and the remaining subscribers still receive the
event. -/
theorem broadcast_isolation (writeOk : Nat → Bool)
    (registry : List (String × List Nat)) (compID : String)
    (clients : List Nat) (hc : lookupClients registry compID = some clients) :
    (dispatchEvent writeOk registry compID).2 = clients.filter writeOk ∧
    lookupClients (dispatchEvent writeOk registry compID).1 compID
      = some (clients.filter writeOk) ∧
    (∀ c ∈ clients, writeOk c = true →
        c ∈ (dispatchEvent writeOk registry compID).2) ∧
    (∀ c ∈ clients, writeOk c = false →
        ∀ kept, lookupClients (dispatchEvent writeOk registry compID).1 compID
            = some kept → c ∉ kept) := by
  have hfan := fanout_eq_filter writeOk clients
  have h1 : (dispatchEvent writeOk registry compID).2 = clients.filter writeOk := by
    simp [dispatchEvent, hc, hfan]
  have h2 : lookupClients (dispatchEvent writeOk registry compID).1 compID
      = some (clients.filter writeOk) := by
    simp only [dispatchEvent, hc, hfan]
    exact lookupClients_map_replace registry compID _ clients hc
  refine ⟨h1, h2, ?_, ?_⟩
  · intro c hcm hok
    rw [h1]
    exact List.mem_filter.2 ⟨hcm, hok⟩
  · intro c hcm hbad kept hk hmem
    rw [h2] at hk
    have hke : kept = clients.filter writeOk := (Option.some.inj hk).symm
    subst hke
    have := (List.mem_filter.1 hmem).2
    rw [hbad] at this
    exact Bool.false_ne_true this

/-- Witness for C9: with three concrete subscribers of which the second
fails, the event reaches the other two and the failing one is dropped
from the registry. -/
theorem broadcast_isolation_witness :
    (dispatchEvent (fun c => c != 2) [("comp", [1, 2, 3])] "comp").2
      = [1, 3] ∧
    lookupClients
        (dispatchEvent (fun c => c != 2) [("comp", [1, 2, 3])] "comp").1 "comp"
      = some [1, 3] := by
  have h := broadcast_isolation (fun c => c != 2) [("comp", [1, 2, 3])] "comp"
      [1, 2, 3] rfl
  exact ⟨h.1.trans (by decide), h.2.1.trans (by decide)⟩

/-- C10: an Attempt whose last_move_time is set but does not parse as an
RFC3339 timestamp is never rate limited: CheckRateLimit returns not
blocked with zero remaining, whatever the attempts count and config. -/
theorem checkRateLimit_unparseable_not_blocked
    (parse : String → Option Int) (now : Int) (t : Try) (cfg : RateLimitConfig)
    (s : String) (hs : t.lastMoveTime = some s) (hp : parse s = none) :
    CheckRateLimit parse now t cfg = (false, 0) := by
  simp [CheckRateLimit, hs, hp]

/-- Witness for C10: a concrete attempt with 99 tries and an unparseable
last-move string is not blocked. -/
theorem checkRateLimit_unparseable_not_blocked_witness :
    CheckRateLimit (fun _ => none) 0
      { emptyTry with attempts := 99, lastMoveTime := some "not-a-timestamp" }
      DefaultRateLimitConfig = (false, 0) :=
  checkRateLimit_unparseable_not_blocked (fun _ => none) 0 _
    DefaultRateLimitConfig "not-a-timestamp" rfl rfl

end AlgoHive
